import Mathlib

set_option maxRecDepth 8000

/-!
Verification development for the price-aggregation service in `src/app.py`.

The service keeps a process-wide cache mapping string keys to
`(timestamp, value)` pairs, and exposes three lookup operations
(bitcoin price, stock price, FX rate) plus a portfolio aggregator.
Upstream HTTP providers are modelled as environments: each provider is an
`Option` (or a function returning an `Option`) that is `some p` exactly when
the real request would return a 2xx status with the expected well-formed
numeric field, and `none` on any exception, non-2xx status or malformed body.
Each lookup additionally reports the list of providers it invoked, so that
call-count properties can be stated.

Time is modelled in whole seconds (a `Nat` clock value passed explicitly).
`datetime.now() - cached_time` is a Python `timedelta`, and the source reads
its `.seconds` field, which is the sub-day seconds component of the elapsed
time, i.e. `(now - cached_time) % 86400` — not the total elapsed seconds.
The embedding reproduces that exactly.
-/

namespace PriceApp

/-- A value stored in the cache / returned by a lookup: a bitcoin price
payload `{"price": amount, "source": source}`, a stock payload
`{"symbol": symbol, "price": amount, "source": source}`, or a bare FX rate. -/
inductive CValue where
  | price (amount : ℚ) (source : String)
  | stockPrice (symbol : String) (amount : ℚ) (source : String)
  | rate (r : ℚ)
  deriving DecidableEq

/-- Python truthiness of a stored value: the two dict payloads are non-empty
dicts, hence always truthy; a bare number is truthy iff it is nonzero. -/
def truthy : CValue → Bool
  | .rate r => if r = 0 then false else true
  | _ => true

/-- The numeric payload of a value: the `price` field of the two dict shapes,
or the bare rate itself.  The source reads this via `x['price']` (portfolio)
or by using the cached object directly (FX); cache keys `bitcoin_aud`,
`stock_*` and `fx_*` are disjoint, so each key always holds one shape. -/
def asNum : CValue → ℚ
  | .price p _ => p
  | .stockPrice _ p _ => p
  | .rate r => r

/-- The cache `cache = {}`: a map from key to `(timestamp, value)`. -/
def Cache : Type := String → Option (Nat × CValue)

/-- The empty cache at process start. -/
def emptyCache : Cache := fun _ => none

/-- `cache_ttl` dict with the source's `cache_ttl.get(category, 300)` default. -/
def cache_ttl (category : String) : Nat :=
  if category = "bitcoin" then 60
  else if category = "stock" then 300
  else if category = "fx" then 3600
  else 300

/-- `set_cache(key, value)`: `cache[key] = (datetime.now(), value)`. -/
def set_cache (c : Cache) (now : Nat) (key : String) (value : CValue) : Cache :=
  fun k => if k = key then some (now, value) else c k

/-- `get_cached_value(key, category)`: returns the stored value when
`(datetime.now() - cached_time).seconds < ttl`, i.e. when the sub-day
component `(now - t) % 86400` of the elapsed time is below the TTL; the
function only reads the dict, so the cache is returned unchanged. -/
def get_cached_value (c : Cache) (now : Nat) (key : String) (category : String) :
    Option CValue × Cache :=
  match c key with
  | some (t, v) =>
      (if (now - t) % 86400 < cache_ttl category then some v else none, c)
  | none => (none, c)

/-- The `x = get_cached_value(...); if x:` pattern used by all three lookups:
a hit requires the retrieved value to be truthy. -/
def cacheHit (c : Cache) (now : Nat) (key : String) (category : String) :
    Option CValue :=
  match (get_cached_value c now key category).1 with
  | some v => if truthy v then some v else none
  | none => none

/-- The three bitcoin providers, in chain order. -/
inductive BtcProv where
  | coingecko | coindesk | alphavantage
  deriving DecidableEq

/-- Outcomes of the three bitcoin provider requests: `some p` iff the request
returns 2xx with the expected numeric field. -/
structure BtcProviders where
  coingecko : Option ℚ
  coindesk : Option ℚ
  alphavantage : Option ℚ

/-- The provider-chain part of `get_bitcoin_price` (lines 66-121): try
CoinGecko, then CoinDesk, then Alpha Vantage, then the static fallback
`{"price": 170000, "source": "fallback"}`; every successful or fallback
result is cached under `bitcoin_aud` before being returned. -/
def btcFetch (env : BtcProviders) (now : Nat) (c : Cache) :
    CValue × Cache × List BtcProv :=
  match env.coingecko with
  | some p =>
      let result := CValue.price p "CoinGecko"
      (result, set_cache c now "bitcoin_aud" result, [.coingecko])
  | none =>
    match env.coindesk with
    | some p =>
        let result := CValue.price p "CoinDesk"
        (result, set_cache c now "bitcoin_aud" result, [.coingecko, .coindesk])
    | none =>
      match env.alphavantage with
      | some p =>
          let result := CValue.price p "Alpha Vantage"
          (result, set_cache c now "bitcoin_aud" result,
            [.coingecko, .coindesk, .alphavantage])
      | none =>
          let result := CValue.price 170000 "fallback"
          (result, set_cache c now "bitcoin_aud" result,
            [.coingecko, .coindesk, .alphavantage])

/-- `get_bitcoin_price`: cache check under key `bitcoin_aud`, category
`bitcoin`; on a (truthy) hit return the cached payload with no provider
calls, otherwise run the provider chain. -/
def get_bitcoin_price (env : BtcProviders) (now : Nat) (c : Cache) :
    CValue × Cache × List BtcProv :=
  match cacheHit c now "bitcoin_aud" "bitcoin" with
  | some v => (v, c, [])
  | none => btcFetch env now c

/-- The two FX providers, in chain order. -/
inductive FxProv where
  | exchangerate | alphavantage
  deriving DecidableEq

/-- Outcomes of the two FX provider requests, per ordered currency pair. -/
structure FxProviders where
  exchangerate : String → String → Option ℚ
  alphavantage : String → String → Option ℚ

/-- The `default_rates` static table of `get_fx_rate_internal`. -/
def default_rates (key : String) : Option ℚ :=
  if key = "USD_AUD" then some 1.48
  else if key = "EUR_AUD" then some 1.63
  else if key = "AUD_USD" then some 0.68
  else if key = "AUD_EUR" then some 0.61
  else none

/-- The provider-chain part of `get_fx_rate_internal` (lines 203-245):
exchangerate-api, then Alpha Vantage, then the static table with generic
default `1.5`; the resulting bare rate is cached under
`fx_<from>_<to>` before being returned. -/
def fxFetch (env : FxProviders) (now : Nat) (c : Cache)
    (from_currency to_currency : String) : ℚ × Cache × List FxProv :=
  let cache_key := "fx_" ++ from_currency ++ "_" ++ to_currency
  match env.exchangerate from_currency to_currency with
  | some rate => (rate, set_cache c now cache_key (.rate rate), [.exchangerate])
  | none =>
    match env.alphavantage from_currency to_currency with
    | some rate =>
        (rate, set_cache c now cache_key (.rate rate),
          [.exchangerate, .alphavantage])
    | none =>
        let rate := (default_rates (from_currency ++ "_" ++ to_currency)).getD 1.5
        (rate, set_cache c now cache_key (.rate rate),
          [.exchangerate, .alphavantage])

/-- `get_fx_rate_internal`: cache check under `fx_<from>_<to>`, category `fx`;
on a (truthy) hit return the cached number unchanged with no provider calls,
otherwise run the provider chain. -/
def get_fx_rate_internal (env : FxProviders) (now : Nat) (c : Cache)
    (from_currency to_currency : String) : ℚ × Cache × List FxProv :=
  let cache_key := "fx_" ++ from_currency ++ "_" ++ to_currency
  match cacheHit c now cache_key "fx" with
  | some v => (asNum v, c, [])
  | none => fxFetch env now c from_currency to_currency

/-- Bool test for `pat in s`, Python substring containment, on char lists. -/
def containsSubAux (pat : List Char) : List Char → Bool
  | [] => pat.isEmpty
  | ch :: rest => pat.isPrefixOf (ch :: rest) || containsSubAux pat rest

/-- Python `pat in symbol`: substring containment (not a suffix test). -/
def containsSub (pat s : String) : Bool :=
  containsSubAux pat.toList s.toList

/-- Left-to-right removal of every occurrence of `pat`, on char lists, with
explicit fuel (the length of the scanned list suffices). -/
def removeAllAux (pat : List Char) : Nat → List Char → List Char
  | 0, s => s
  | _ + 1, [] => []
  | fuel + 1, ch :: rest =>
      if pat.isPrefixOf (ch :: rest) && !pat.isEmpty then
        removeAllAux pat fuel ((ch :: rest).drop pat.length)
      else
        ch :: removeAllAux pat fuel rest

/-- Python `s.replace(pat, '')`: remove every occurrence of `pat`. -/
def removeAll (s pat : String) : String :=
  ⟨removeAllAux pat.toList s.toList.length s.toList⟩

/-- `clean_symbol = symbol.replace('.AX', '').replace('.PA', '').replace('.V', '')`. -/
def cleanSymbol (symbol : String) : String :=
  removeAll (removeAll (removeAll symbol ".AX") ".PA") ".V"

/-- Outcome of the single Alpha Vantage stock-quote request, as a function of
the cleaned ticker sent upstream. -/
structure StockProvider where
  quote : String → Option ℚ

/-- The `fallback_prices` static table of `get_stock_price`. -/
def fallback_prices (symbol : String) : Option ℚ :=
  if symbol = "VBTC" then some 35.65
  else if symbol = "VTS" then some 476.55
  else if symbol = "VEU" then some 103.02
  else if symbol = "ZETA" then some 44.50
  else if symbol = "NUGG.AX" then some 50.83
  else if symbol = "ASML" then some 1570.00
  else if symbol = "MC.PA" then some 1335.00
  else if symbol = "TTD" then some 124.00
  else if symbol = "MSTY" then some 41.45
  else if symbol = "SOS.V" then some 12.00
  else if symbol = "SPY" then some 860.00
  else none

/-- The cache-miss part of `get_stock_price` (lines 134-182): query the
provider with the cleaned ticker; on success convert using `'.PA' in symbol`
(substring) → EUR rate, else `not '.AX' in symbol and not '.V' in symbol` →
USD rate, else no conversion; on failure use `fallback_prices.get(symbol, 100)`
with source `"fallback"`.  Returns (result, cache, quote-request issued,
FX providers invoked by the nested FX lookup). -/
def stockFetch (sp : StockProvider) (fxenv : FxProviders) (now : Nat)
    (c : Cache) (symbol : String) : CValue × Cache × Bool × List FxProv :=
  let cache_key := "stock_" ++ symbol
  match sp.quote (cleanSymbol symbol) with
  | some p =>
      if containsSub ".PA" symbol then
        let fx := get_fx_rate_internal fxenv now c "EUR" "AUD"
        let result := CValue.stockPrice symbol (p * fx.1) "Alpha Vantage"
        (result, set_cache fx.2.1 now cache_key result, true, fx.2.2)
      else if !containsSub ".AX" symbol && !containsSub ".V" symbol then
        let fx := get_fx_rate_internal fxenv now c "USD" "AUD"
        let result := CValue.stockPrice symbol (p * fx.1) "Alpha Vantage"
        (result, set_cache fx.2.1 now cache_key result, true, fx.2.2)
      else
        let result := CValue.stockPrice symbol p "Alpha Vantage"
        (result, set_cache c now cache_key result, true, [])
  | none =>
      let result :=
        CValue.stockPrice symbol ((fallback_prices symbol).getD 100) "fallback"
      (result, set_cache c now cache_key result, true, [])

/-- `get_stock_price`: cache check under `stock_<symbol>` (raw symbol),
category `stock`; on a (truthy) hit return the cached payload with no
upstream request, otherwise run `stockFetch`. -/
def get_stock_price (sp : StockProvider) (fxenv : FxProviders) (now : Nat)
    (c : Cache) (symbol : String) : CValue × Cache × Bool × List FxProv :=
  let cache_key := "stock_" ++ symbol
  match cacheHit c now cache_key "stock" with
  | some v => (v, c, false, [])
  | none => stockFetch sp fxenv now c symbol

/-- A caller-supplied holding `{symbol, type}`. -/
structure Holding where
  symbol : String
  type : String
  deriving DecidableEq

/-- An entry of the portfolio `results` dict: a bare number, or the
`fx_rates` sub-dict `{USD: ..., EUR: ...}`. -/
inductive PEntry where
  | num (q : ℚ)
  | fxmap (usd eur : ℚ)
  deriving DecidableEq

/-- The portfolio `results` dict. -/
def Results : Type := String → Option PEntry

/-- Python dict assignment `results[k] = v`. -/
def resSet (m : Results) (key : String) (v : PEntry) : Results :=
  fun k => if k = key then some v else m k

/-- The holdings loop of `get_portfolio_prices`: for every holding whose
type is not `"crypto"`, look up its stock price on the current cache and
record `results[symbol] = price`. -/
def portfolioStocks (sp : StockProvider) (fxenv : FxProviders) (now : Nat) :
    List Holding → Results × Cache → Results × Cache
  | [], rc => rc
  | h :: rest, (res, c) =>
      if h.type = "crypto" then
        portfolioStocks sp fxenv now rest (res, c)
      else
        let st := get_stock_price sp fxenv now c h.symbol
        portfolioStocks sp fxenv now rest
          (resSet res h.symbol (.num (asNum st.1)), st.2.1)

/-- `get_portfolio_prices` (lines 247-289): bitcoin price under `BTC`, the
USD and EUR rates under the `fx_rates` sub-dict, one stock lookup per
non-crypto holding under its symbol, and finally `SPY`; the cache is threaded
through every sub-lookup.  Returns the `prices` dict and the final cache. -/
def get_portfolio_prices (benv : BtcProviders) (fxenv : FxProviders)
    (sp : StockProvider) (now : Nat) (c : Cache) (holdings : List Holding) :
    Results × Cache :=
  let btc := get_bitcoin_price benv now c
  let res1 : Results := resSet (fun _ => none) "BTC" (.num (asNum btc.1))
  let fxU := get_fx_rate_internal fxenv now btc.2.1 "USD" "AUD"
  let fxE := get_fx_rate_internal fxenv now fxU.2.1 "EUR" "AUD"
  let res2 := resSet res1 "fx_rates" (.fxmap fxU.1 fxE.1)
  let sc := portfolioStocks sp fxenv now holdings (res2, fxE.2.1)
  let spy := get_stock_price sp fxenv now sc.2 "SPY"
  (resSet sc.1 "SPY" (.num (asNum spy.1)), spy.2.1)

/-- Bool discriminator: an entry that is the `fx_rates` sub-dict. -/
def isFxmap : Option PEntry → Bool
  | some (.fxmap _ _) => true
  | _ => false

/-- Every category TTL is positive (60, 300, 3600, or the 300 default). -/
theorem cache_ttl_pos (category : String) : 0 < cache_ttl category := by
  unfold cache_ttl
  split <;> norm_num
  split <;> norm_num
  split <;> norm_num

/-- A freshly written entry is a truthy-checked hit as long as the elapsed
time is below both the TTL and one day. -/
theorem cacheHit_after_set (c : Cache) (now now2 : Nat) (key cat : String)
    (v : CValue) (h1 : truthy v = true) (h2 : now2 - now < cache_ttl cat)
    (h3 : now2 - now < 86400) :
    cacheHit (set_cache c now key v) now2 key cat = some v := by
  simp [cacheHit, get_cached_value, set_cache, Nat.mod_eq_of_lt h3, h2, h1]

/-- A stored value whose truthiness is false is never a hit, fresh or not. -/
theorem cacheHit_falsy (c : Cache) (now t : Nat) (key cat : String)
    (v : CValue) (hc : c key = some (t, v)) (hv : truthy v = false) :
    cacheHit c now key cat = none := by
  rcases Nat.lt_or_ge ((now - t) % 86400) (cache_ttl cat) with h | h <;>
    simp [cacheHit, get_cached_value, hc, hv, h, Nat.not_lt.mpr h]

/-- C1: the spec requires `get` to treat an entry as absent for every read
with `elapsed >= ttl(category)`, but the source compares
`(datetime.now() - cached_time).seconds`, the sub-day seconds component of
the elapsed time.  Failing input: an `fx`-category entry (ttl 3600) written
at time 0 and read at time 86460 (one day plus one minute later) is still
returned, because `86460 % 86400 = 60 < 3600`. -/
theorem ttl_seconds_wraparound :
    (get_cached_value (set_cache emptyCache 0 "fx_USD_AUD" (.rate 1.48))
        86460 "fx_USD_AUD" "fx").1 = some (.rate 1.48) ∧
      cache_ttl "fx" ≤ 86460 - 0 := by
  with_unfolding_all decide

/-- C9: the cache get operation performs no write to the cache (its state
component comes back untouched, so an expired entry is ignored rather than
deleted, and a subsequent set overwrites it and is then read back), and
set unconditionally stores `(now, value)` under its key while leaving every
other key's entry unchanged. -/
theorem cache_get_set_frame (c : Cache) (now now2 t : Nat)
    (key cat k : String) (v0 v2 : CValue) :
    (get_cached_value c now key cat).2 = c ∧
    set_cache c now2 key v2 key = some (now2, v2) ∧
    (k ≠ key → set_cache c now2 key v2 k = c k) ∧
    (c key = some (t, v0) → (get_cached_value c now key cat).1 = none →
      (get_cached_value (set_cache c now2 key v2) now2 key cat).1 = some v2) := by
  refine ⟨?_, ?_, fun hk => ?_, fun _ _ => ?_⟩
  · unfold get_cached_value
    rcases c key with _ | ⟨_, _⟩ <;> rfl
  · simp [set_cache]
  · simp [set_cache, hk]
  · simp [get_cached_value, set_cache, cache_ttl_pos]

/-- C9 witness: a concrete expired entry is left in place by get and
overwritten by a later set; a concrete set leaves an unrelated key alone. -/
theorem cache_get_set_frame_witness :
    (get_cached_value (fun _ => some (0, CValue.rate 1)) 100 "k" "bitcoin").2 =
      (fun _ => some (0, CValue.rate 1)) ∧
    set_cache emptyCache 5 "b" (CValue.rate 2) "b" = some (5, CValue.rate 2) ∧
    set_cache emptyCache 5 "b" (CValue.rate 2) "a" = emptyCache "a" ∧
    (get_cached_value
        (set_cache (fun _ => some (0, CValue.rate 1)) 7 "k" (CValue.rate 3)) 7
        "k" "bitcoin").1 = some (CValue.rate 3) :=
  ⟨(cache_get_set_frame (fun _ => some (0, CValue.rate 1)) 100 0 0 "k"
      "bitcoin" "a" (CValue.rate 1) (CValue.rate 1)).1,
    (cache_get_set_frame emptyCache 0 5 0 "b" "stock" "a" (CValue.rate 1)
      (CValue.rate 2)).2.1,
    (cache_get_set_frame emptyCache 0 5 0 "b" "stock" "a" (CValue.rate 1)
      (CValue.rate 2)).2.2.1 (by decide),
    (cache_get_set_frame (fun _ => some (0, CValue.rate 1)) 100 7 0 "k"
      "bitcoin" "a" (CValue.rate 1) (CValue.rate 3)).2.2.2 rfl (by decide)⟩

/-- C2: when the bitcoin cache has no live entry and all three providers
fail, `get_bitcoin_price` returns `{"price": 170000, "source": "fallback"}`
and stores that same payload in the cache under `bitcoin_aud`. -/
theorem bitcoin_all_providers_fail (env : BtcProviders) (now : Nat) (c : Cache)
    (h1 : env.coingecko = none) (h2 : env.coindesk = none)
    (h3 : env.alphavantage = none)
    (hmiss : (get_cached_value c now "bitcoin_aud" "bitcoin").1 = none) :
    (get_bitcoin_price env now c).1 = CValue.price 170000 "fallback" ∧
    (get_bitcoin_price env now c).2.1 "bitcoin_aud" =
      some (now, CValue.price 170000 "fallback") := by
  constructor <;>
    simp [get_bitcoin_price, cacheHit, hmiss, btcFetch, h1, h2, h3, set_cache]

/-- C2 witness: all providers down on an empty cache at time 0. -/
theorem bitcoin_all_providers_fail_witness :
    (get_bitcoin_price ⟨none, none, none⟩ 0 emptyCache).1 =
      CValue.price 170000 "fallback" ∧
    (get_bitcoin_price ⟨none, none, none⟩ 0 emptyCache).2.1 "bitcoin_aud" =
      some (0, CValue.price 170000 "fallback") :=
  bitcoin_all_providers_fail ⟨none, none, none⟩ 0 emptyCache rfl rfl rfl
    (by decide)

/-- C3: on a cache miss, if the first bitcoin provider (CoinGecko) yields a
price then that result is returned and the second and third providers are
not invoked; analogously, if the first FX provider (exchangerate-api) yields
a rate, the second FX provider is not invoked. -/
theorem provider_priority (benv : BtcProviders) (p : ℚ) (now : Nat) (c : Cache)
    (fxenv : FxProviders) (r : ℚ) (now2 : Nat) (c2 : Cache)
    (from_currency to_currency : String)
    (hbmiss : (get_cached_value c now "bitcoin_aud" "bitcoin").1 = none)
    (hb1 : benv.coingecko = some p)
    (hfmiss : (get_cached_value c2 now2
        ("fx_" ++ from_currency ++ "_" ++ to_currency) "fx").1 = none)
    (hf1 : fxenv.exchangerate from_currency to_currency = some r) :
    get_bitcoin_price benv now c =
      (CValue.price p "CoinGecko",
        set_cache c now "bitcoin_aud" (CValue.price p "CoinGecko"),
        [BtcProv.coingecko]) ∧
    get_fx_rate_internal fxenv now2 c2 from_currency to_currency =
      (r, set_cache c2 now2 ("fx_" ++ from_currency ++ "_" ++ to_currency)
            (CValue.rate r), [FxProv.exchangerate]) := by
  constructor
  · simp [get_bitcoin_price, cacheHit, hbmiss, btcFetch, hb1]
  · simp [get_fx_rate_internal, cacheHit, hfmiss, fxFetch, hf1]

/-- C3 witness: a succeeding first provider on an empty cache. -/
theorem provider_priority_witness :
    get_bitcoin_price ⟨some 50, none, none⟩ 0 emptyCache =
      (CValue.price 50 "CoinGecko",
        set_cache emptyCache 0 "bitcoin_aud" (CValue.price 50 "CoinGecko"),
        [BtcProv.coingecko]) ∧
    get_fx_rate_internal ⟨fun _ _ => some 2, fun _ _ => none⟩ 0 emptyCache
        "USD" "AUD" =
      (2, set_cache emptyCache 0 ("fx_" ++ "USD" ++ "_" ++ "AUD")
            (CValue.rate 2), [FxProv.exchangerate]) :=
  provider_priority ⟨some 50, none, none⟩ 50 0 emptyCache
    ⟨fun _ _ => some 2, fun _ _ => none⟩ 2 0 emptyCache "USD" "AUD"
    (by decide) rfl (by decide) rfl

/-- C6: on a cache miss with both FX providers failing, the lookup returns
the static-table rate for the concatenated pair string (with generic default
1.5 when absent), caches it under the pair key — and the table gives 1.48
for the pair USD,AUD. -/
theorem fx_total_failure_fallback (env : FxProviders) (now : Nat) (c : Cache)
    (from_currency to_currency : String)
    (hmiss : (get_cached_value c now
        ("fx_" ++ from_currency ++ "_" ++ to_currency) "fx").1 = none)
    (h1 : env.exchangerate from_currency to_currency = none)
    (h2 : env.alphavantage from_currency to_currency = none) :
    (get_fx_rate_internal env now c from_currency to_currency).1 =
      (default_rates (from_currency ++ "_" ++ to_currency)).getD 1.5 ∧
    (get_fx_rate_internal env now c from_currency to_currency).2.1
        ("fx_" ++ from_currency ++ "_" ++ to_currency) =
      some (now,
        CValue.rate ((default_rates (from_currency ++ "_" ++ to_currency)).getD 1.5)) ∧
    default_rates "USD_AUD" = some 1.48 := by
  refine ⟨?_, ?_, by with_unfolding_all decide⟩ <;>
    simp [get_fx_rate_internal, cacheHit, hmiss, fxFetch, h1, h2, set_cache]

/-- C6 witness: USD,AUD with both providers down returns the table rate 1.48
and caches it. -/
theorem fx_total_failure_fallback_witness :
    (get_fx_rate_internal ⟨fun _ _ => none, fun _ _ => none⟩ 0 emptyCache
        "USD" "AUD").1 = 1.48 ∧
    (get_fx_rate_internal ⟨fun _ _ => none, fun _ _ => none⟩ 0 emptyCache
        "USD" "AUD").2.1 ("fx_" ++ "USD" ++ "_" ++ "AUD") =
      some (0, CValue.rate 1.48) := by
  have h := fx_total_failure_fallback ⟨fun _ _ => none, fun _ _ => none⟩ 0
    emptyCache "USD" "AUD" (by decide) rfl rfl
  refine ⟨?_, ?_⟩
  · simpa [default_rates] using h.1
  · simpa [default_rates] using h.2.1

/-- C7: on a cache miss, if the single stock provider fails the lookup
returns the per-symbol static fallback (generic default 100 when the raw
symbol is absent from the table) with source `"fallback"`; if the provider
succeeds the source is `"Alpha Vantage"`. -/
theorem stock_fallback_behavior (sp : StockProvider) (fxenv : FxProviders)
    (now : Nat) (c : Cache) (symbol : String)
    (hmiss : (get_cached_value c now ("stock_" ++ symbol) "stock").1 = none) :
    (sp.quote (cleanSymbol symbol) = none →
      (get_stock_price sp fxenv now c symbol).1 =
        CValue.stockPrice symbol ((fallback_prices symbol).getD 100)
          "fallback") ∧
    (∀ p : ℚ, sp.quote (cleanSymbol symbol) = some p →
      ∃ q : ℚ, (get_stock_price sp fxenv now c symbol).1 =
        CValue.stockPrice symbol q "Alpha Vantage") := by
  constructor
  · intro hq
    simp [get_stock_price, cacheHit, hmiss, stockFetch, hq]
  · intro p hq
    by_cases hPA : containsSub ".PA" symbol = true
    · exact ⟨p * (get_fx_rate_internal fxenv now c "EUR" "AUD").1,
        by simp [get_stock_price, cacheHit, hmiss, stockFetch, hq, hPA]⟩
    · by_cases hAX : containsSub ".AX" symbol = true
      · exact ⟨p,
          by simp [get_stock_price, cacheHit, hmiss, stockFetch, hq, hPA, hAX]⟩
      · by_cases hV : containsSub ".V" symbol = true
        · exact ⟨p, by
            simp [get_stock_price, cacheHit, hmiss, stockFetch, hq, hPA, hAX, hV]⟩
        · exact ⟨p * (get_fx_rate_internal fxenv now c "USD" "AUD").1, by
            simp [get_stock_price, cacheHit, hmiss, stockFetch, hq, hPA, hAX, hV]⟩

/-- C7 witness: an unknown symbol falls back to the generic 100; a
suffix-free known symbol succeeds with source Alpha Vantage. -/
theorem stock_fallback_behavior_witness :
    (get_stock_price ⟨fun _ => none⟩ ⟨fun _ _ => none, fun _ _ => none⟩ 0
        emptyCache "FOO").1 =
      CValue.stockPrice "FOO" 100 "fallback" ∧
    ∃ q : ℚ,
      (get_stock_price ⟨fun _ => some 7⟩ ⟨fun _ _ => none, fun _ _ => none⟩ 0
          emptyCache "NUGG.AX").1 =
        CValue.stockPrice "NUGG.AX" q "Alpha Vantage" := by
  constructor
  · have h := stock_fallback_behavior ⟨fun _ => none⟩
      ⟨fun _ _ => none, fun _ _ => none⟩ 0 emptyCache "FOO" (by decide)
    simpa [fallback_prices] using h.1 rfl
  · exact (stock_fallback_behavior ⟨fun _ => some 7⟩
      ⟨fun _ _ => none, fun _ _ => none⟩ 0 emptyCache "NUGG.AX"
      (by decide)).2 7 rfl

/-- C4 counterexample: the source tests `'.PA' in symbol`, substring
containment, not a suffix.  The symbol `"X.PAY"` ends with none of the
three market suffixes, so the claim requires its price to be
`rawPrice * rate(USD, AUD)` (here `100 * 1.48 = 148`), but the code takes
the European branch and returns `100 * 1.63 = 163`. -/
theorem stock_pa_substring_counterexample :
    (get_stock_price ⟨fun _ => some 100⟩ ⟨fun _ _ => none, fun _ _ => none⟩ 0
        emptyCache "X.PAY").1 =
      CValue.stockPrice "X.PAY" 163 "Alpha Vantage" ∧
    "X.PAY".endsWith ".PA" = false ∧
    "X.PAY".endsWith ".AX" = false ∧
    "X.PAY".endsWith ".V" = false ∧
    100 * (get_fx_rate_internal ⟨fun _ _ => none, fun _ _ => none⟩ 0 emptyCache
        "USD" "AUD").1 = 148 ∧
    (163 : ℚ) ≠ 148 := by
  with_unfolding_all decide

/-- C4 (amended): with suffix tests replaced by the substring tests the
source performs, currency normalization holds: a symbol containing `.PA`
is multiplied by the EUR→AUD rate; a symbol containing neither `.AX` nor
`.V` (nor `.PA`) is multiplied by the USD→AUD rate; otherwise the raw
price is returned unchanged. -/
theorem stock_currency_normalization (sp : StockProvider) (fxenv : FxProviders)
    (now : Nat) (c : Cache) (symbol : String) (p : ℚ)
    (hmiss : (get_cached_value c now ("stock_" ++ symbol) "stock").1 = none)
    (hq : sp.quote (cleanSymbol symbol) = some p) :
    (containsSub ".PA" symbol = true →
      (get_stock_price sp fxenv now c symbol).1 =
        CValue.stockPrice symbol
          (p * (get_fx_rate_internal fxenv now c "EUR" "AUD").1)
          "Alpha Vantage") ∧
    (containsSub ".PA" symbol = false → containsSub ".AX" symbol = false →
      containsSub ".V" symbol = false →
      (get_stock_price sp fxenv now c symbol).1 =
        CValue.stockPrice symbol
          (p * (get_fx_rate_internal fxenv now c "USD" "AUD").1)
          "Alpha Vantage") ∧
    (containsSub ".PA" symbol = false →
      (containsSub ".AX" symbol = true ∨ containsSub ".V" symbol = true) →
      (get_stock_price sp fxenv now c symbol).1 =
        CValue.stockPrice symbol p "Alpha Vantage") := by
  refine ⟨fun hPA => ?_, fun hPA hAX hV => ?_, fun hPA hor => ?_⟩
  · simp [get_stock_price, cacheHit, hmiss, stockFetch, hq, hPA]
  · simp [get_stock_price, cacheHit, hmiss, stockFetch, hq, hPA, hAX, hV]
  · rcases hor with h | h <;>
      simp [get_stock_price, cacheHit, hmiss, stockFetch, hq, hPA, h]

/-- C4 witness: `MC.PA` with a succeeding quote is converted with the
EUR→AUD rate obtained by the FX lookup on the same cache. -/
theorem stock_currency_normalization_witness :
    (get_stock_price ⟨fun _ => some 10⟩ ⟨fun _ _ => none, fun _ _ => none⟩ 0
        emptyCache "MC.PA").1 =
      CValue.stockPrice "MC.PA"
        (10 * (get_fx_rate_internal ⟨fun _ _ => none, fun _ _ => none⟩ 0
          emptyCache "EUR" "AUD").1) "Alpha Vantage" :=
  (stock_currency_normalization ⟨fun _ => some 10⟩
    ⟨fun _ _ => none, fun _ _ => none⟩ 0 emptyCache "MC.PA" 10
    (by decide) rfl).1 (by decide)

/-- C10: a cached value that is falsy (a zero rate) fails the `if cached:`
check of each lookup even when the entry is fresh: the lookup behaves
exactly as on a miss and runs its provider chain (the bitcoin and FX
chains always issue at least one request, and the stock lookup always
issues its quote request). -/
theorem falsy_cached_value_is_miss (benv : BtcProviders) (fxenv : FxProviders)
    (sp : StockProvider) (c : Cache) (now : Nat)
    (symbol from_currency to_currency : String) :
    (∀ t v, c "bitcoin_aud" = some (t, v) → truthy v = false →
      get_bitcoin_price benv now c = btcFetch benv now c ∧
      (btcFetch benv now c).2.2 ≠ []) ∧
    (∀ t v, c ("stock_" ++ symbol) = some (t, v) → truthy v = false →
      get_stock_price sp fxenv now c symbol =
        stockFetch sp fxenv now c symbol ∧
      (stockFetch sp fxenv now c symbol).2.2.1 = true) ∧
    (∀ t v, c ("fx_" ++ from_currency ++ "_" ++ to_currency) = some (t, v) →
      truthy v = false →
      get_fx_rate_internal fxenv now c from_currency to_currency =
        fxFetch fxenv now c from_currency to_currency ∧
      (fxFetch fxenv now c from_currency to_currency).2.2 ≠ []) := by
  refine ⟨fun t v hc hv => ⟨?_, ?_⟩, fun t v hc hv => ⟨?_, ?_⟩,
    fun t v hc hv => ⟨?_, ?_⟩⟩
  · simp [get_bitcoin_price, cacheHit_falsy c now t _ _ v hc hv]
  · unfold btcFetch
    rcases benv.coingecko with _ | p <;> rcases benv.coindesk with _ | p2 <;>
      rcases benv.alphavantage with _ | p3 <;> simp
  · simp [get_stock_price, cacheHit_falsy c now t _ _ v hc hv]
  · rcases hq : sp.quote (cleanSymbol symbol) with _ | p
    · simp [stockFetch, hq]
    · simp only [stockFetch, hq]
      split
      · rfl
      · split <;> rfl
  · simp [get_fx_rate_internal, cacheHit_falsy c now t _ _ v hc hv]
  · unfold fxFetch
    rcases fxenv.exchangerate from_currency to_currency with _ | r <;>
      rcases fxenv.alphavantage from_currency to_currency with _ | r2 <;> simp

/-- C10 witness: a cache whose every entry is a fresh zero rate makes all
three lookups take their provider paths. -/
theorem falsy_cached_value_is_miss_witness :
    get_bitcoin_price ⟨none, none, none⟩ 5
        (fun _ => some (0, CValue.rate 0)) =
      btcFetch ⟨none, none, none⟩ 5 (fun _ => some (0, CValue.rate 0)) ∧
    get_stock_price ⟨fun _ => none⟩ ⟨fun _ _ => none, fun _ _ => none⟩ 5
        (fun _ => some (0, CValue.rate 0)) "SPY" =
      stockFetch ⟨fun _ => none⟩ ⟨fun _ _ => none, fun _ _ => none⟩ 5
        (fun _ => some (0, CValue.rate 0)) "SPY" ∧
    get_fx_rate_internal ⟨fun _ _ => none, fun _ _ => none⟩ 5
        (fun _ => some (0, CValue.rate 0)) "USD" "AUD" =
      fxFetch ⟨fun _ _ => none, fun _ _ => none⟩ 5
        (fun _ => some (0, CValue.rate 0)) "USD" "AUD" :=
  ⟨((falsy_cached_value_is_miss ⟨none, none, none⟩
      ⟨fun _ _ => none, fun _ _ => none⟩ ⟨fun _ => none⟩
      (fun _ => some (0, CValue.rate 0)) 5 "SPY" "USD" "AUD").1 0
      (CValue.rate 0) rfl rfl).1,
   ((falsy_cached_value_is_miss ⟨none, none, none⟩
      ⟨fun _ _ => none, fun _ _ => none⟩ ⟨fun _ => none⟩
      (fun _ => some (0, CValue.rate 0)) 5 "SPY" "USD" "AUD").2.1 0
      (CValue.rate 0) rfl rfl).1,
   ((falsy_cached_value_is_miss ⟨none, none, none⟩
      ⟨fun _ _ => none, fun _ _ => none⟩ ⟨fun _ => none⟩
      (fun _ => some (0, CValue.rate 0)) 5 "SPY" "USD" "AUD").2.2 0
      (CValue.rate 0) rfl rfl).1⟩

/-- Dict assignment stores the value under its key. -/
theorem resSet_same (m : Results) (key : String) (v : PEntry) :
    resSet m key v key = some v := by
  simp [resSet]

/-- Dict assignment leaves every other key unchanged. -/
theorem resSet_other (m : Results) (key k : String) (v : PEntry)
    (h : k ≠ key) : resSet m key v k = m k := by
  simp [resSet, h]

/-- Dict assignment preserves presence of any key. -/
theorem resSet_isSome (m : Results) (key k : String) (v : PEntry)
    (h : (m k).isSome) : (resSet m key v k).isSome := by
  by_cases hk : k = key <;> simp [resSet, hk, h]

/-- The key just assigned is present. -/
theorem resSet_same_isSome (m : Results) (key : String) (v : PEntry) :
    (resSet m key v key).isSome := by
  simp [resSet_same]

/-- The holdings loop preserves presence of any key of the results dict. -/
theorem portfolioStocks_isSome (sp : StockProvider) (fxenv : FxProviders)
    (now : Nat) (hs : List Holding) (res : Results) (c : Cache) (k : String)
    (h : (res k).isSome) :
    ((portfolioStocks sp fxenv now hs (res, c)).1 k).isSome := by
  induction hs generalizing res c with
  | nil => simpa [portfolioStocks] using h
  | cons hd rest ih =>
      by_cases ht : hd.type = "crypto"
      · simpa [portfolioStocks, ht] using ih res c h
      · simpa [portfolioStocks, ht] using
          ih _ _ (resSet_isSome res hd.symbol k _ h)

/-- The holdings loop does not touch a key that is no holding's symbol. -/
theorem portfolioStocks_frame (sp : StockProvider) (fxenv : FxProviders)
    (now : Nat) (hs : List Holding) (res : Results) (c : Cache) (k : String)
    (hns : ∀ h ∈ hs, h.symbol ≠ k) :
    (portfolioStocks sp fxenv now hs (res, c)).1 k = res k := by
  induction hs generalizing res c with
  | nil => simp [portfolioStocks]
  | cons hd rest ih =>
      have hd_ne : hd.symbol ≠ k := hns hd (List.mem_cons_self hd rest)
      have hrest : ∀ h ∈ rest, h.symbol ≠ k := fun h hm =>
        hns h (List.mem_cons_of_mem hd hm)
      by_cases ht : hd.type = "crypto"
      · simpa [portfolioStocks, ht] using ih res c hrest
      · simp only [portfolioStocks, if_neg ht]
        rw [ih _ _ hrest, resSet_other res hd.symbol k _ (Ne.symm hd_ne)]

/-- The holdings loop records an entry for every non-crypto holding. -/
theorem portfolioStocks_member (sp : StockProvider) (fxenv : FxProviders)
    (now : Nat) (h0 : Holding) (hty : h0.type ≠ "crypto") :
    ∀ (hs : List Holding) (res : Results) (c : Cache), h0 ∈ hs →
      ((portfolioStocks sp fxenv now hs (res, c)).1 h0.symbol).isSome := by
  intro hs
  induction hs with
  | nil => intro res c hmem; cases hmem
  | cons hd rest ih =>
      intro res c hmem
      rcases List.mem_cons.mp hmem with heq | hmem2
      · subst heq
        simp only [portfolioStocks, if_neg hty]
        exact portfolioStocks_isSome sp fxenv now rest _ _ _
          (by simp [resSet_same])
      · by_cases ht : hd.type = "crypto"
        · simpa [portfolioStocks, ht] using ih res c hmem2
        · simp only [portfolioStocks, if_neg ht]
          exact ih _ _ hmem2

/-- C5 counterexample: a holding whose symbol is the literal string
`fx_rates` makes the holdings loop overwrite the `fx_rates` sub-map with
that holding's (numeric) stock price, so the aggregated result no longer
contains the keys `fx_rates.USD` / `fx_rates.EUR` required by the claim. -/
theorem portfolio_fx_rates_clobbered :
    (get_portfolio_prices ⟨none, none, none⟩ ⟨fun _ _ => none, fun _ _ => none⟩
        ⟨fun _ => none⟩ 0 emptyCache [⟨"fx_rates", "stock"⟩]).1 "fx_rates" =
      some (PEntry.num 100) ∧
    isFxmap ((get_portfolio_prices ⟨none, none, none⟩
        ⟨fun _ _ => none, fun _ _ => none⟩
        ⟨fun _ => none⟩ 0 emptyCache [⟨"fx_rates", "stock"⟩]).1 "fx_rates") =
      false := by
  with_unfolding_all decide

/-- C5 (amended): the aggregation is a total function whose result always
contains the key `BTC`, one key per non-crypto holding's symbol, and the
benchmark key `SPY`, for any provider outcomes; and provided no holding's
symbol is the literal string `fx_rates`, the `fx_rates` entry is the
sub-map holding the USD and EUR rates. -/
theorem portfolio_completeness (benv : BtcProviders) (fxenv : FxProviders)
    (sp : StockProvider) (now : Nat) (c : Cache) (holdings : List Holding) :
    ((get_portfolio_prices benv fxenv sp now c holdings).1 "BTC").isSome ∧
    (∀ h ∈ holdings, h.type ≠ "crypto" →
      ((get_portfolio_prices benv fxenv sp now c holdings).1 h.symbol).isSome) ∧
    ((get_portfolio_prices benv fxenv sp now c holdings).1 "SPY").isSome ∧
    ((∀ h ∈ holdings, h.symbol ≠ "fx_rates") →
      ∃ u e : ℚ,
        (get_portfolio_prices benv fxenv sp now c holdings).1 "fx_rates" =
          some (PEntry.fxmap u e)) := by
  simp only [get_portfolio_prices]
  refine ⟨?_, fun h hm hty => ?_, ?_, fun hfx => ?_⟩
  · exact resSet_isSome _ _ _ _
      (portfolioStocks_isSome _ _ _ _ _ _ _
        (resSet_isSome _ _ _ _ (resSet_same_isSome _ _ _)))
  · exact resSet_isSome _ _ _ _
      (portfolioStocks_member sp fxenv now h hty holdings _ _ hm)
  · exact resSet_same_isSome _ _ _
  · exact ⟨_, _, (resSet_other _ _ _ _ (by decide : "fx_rates" ≠ "SPY")).trans
      ((portfolioStocks_frame _ _ _ _ _ _ _ hfx).trans (resSet_same _ _ _))⟩

/-- C5 witness: the spec's own example, holdings `[{FAKE, stock}]` with
every provider down. -/
theorem portfolio_completeness_witness :
    ((get_portfolio_prices ⟨none, none, none⟩ ⟨fun _ _ => none, fun _ _ => none⟩
        ⟨fun _ => none⟩ 0 emptyCache [⟨"FAKE", "stock"⟩]).1 "BTC").isSome ∧
    ((get_portfolio_prices ⟨none, none, none⟩ ⟨fun _ _ => none, fun _ _ => none⟩
        ⟨fun _ => none⟩ 0 emptyCache [⟨"FAKE", "stock"⟩]).1 "FAKE").isSome ∧
    ((get_portfolio_prices ⟨none, none, none⟩ ⟨fun _ _ => none, fun _ _ => none⟩
        ⟨fun _ => none⟩ 0 emptyCache [⟨"FAKE", "stock"⟩]).1 "SPY").isSome ∧
    ∃ u e : ℚ,
      (get_portfolio_prices ⟨none, none, none⟩ ⟨fun _ _ => none, fun _ _ => none⟩
        ⟨fun _ => none⟩ 0 emptyCache [⟨"FAKE", "stock"⟩]).1 "fx_rates" =
        some (PEntry.fxmap u e) := by
  have h := portfolio_completeness ⟨none, none, none⟩
    ⟨fun _ _ => none, fun _ _ => none⟩ ⟨fun _ => none⟩ 0 emptyCache
    [⟨"FAKE", "stock"⟩]
  exact ⟨h.1, h.2.1 ⟨"FAKE", "stock"⟩ (by simp) (by simp),
    h.2.2.1, h.2.2.2 (by simp)⟩

/-- The bitcoin provider chain always produces a truthy payload and caches
it under `bitcoin_aud` with the current time. -/
theorem btcFetch_shape (env : BtcProviders) (now : Nat) (c : Cache) :
    ∃ v : CValue, truthy v = true ∧
      btcFetch env now c =
        (v, set_cache c now "bitcoin_aud" v, (btcFetch env now c).2.2) := by
  rcases hcg : env.coingecko with _ | p
  · rcases hcd : env.coindesk with _ | p2
    · rcases hav : env.alphavantage with _ | p3
      · exact ⟨CValue.price 170000 "fallback", rfl,
          by simp [btcFetch, hcg, hcd, hav]⟩
      · exact ⟨CValue.price p3 "Alpha Vantage", rfl,
          by simp [btcFetch, hcg, hcd, hav]⟩
    · exact ⟨CValue.price p2 "CoinDesk", rfl, by simp [btcFetch, hcg, hcd]⟩
  · exact ⟨CValue.price p "CoinGecko", rfl, by simp [btcFetch, hcg]⟩

/-- The FX provider chain caches exactly the rate it returns. -/
theorem fxFetch_shape (env : FxProviders) (now : Nat) (c : Cache)
    (from_currency to_currency : String) :
    fxFetch env now c from_currency to_currency =
      ((fxFetch env now c from_currency to_currency).1,
        set_cache c now ("fx_" ++ from_currency ++ "_" ++ to_currency)
          (.rate (fxFetch env now c from_currency to_currency).1),
        (fxFetch env now c from_currency to_currency).2.2) := by
  rcases h1 : env.exchangerate from_currency to_currency with _ | r
  · rcases h2 : env.alphavantage from_currency to_currency with _ | r2 <;>
      simp [fxFetch, h1, h2]
  · simp [fxFetch, h1]

/-- The stock miss path always produces a truthy payload and caches it
under `stock_<symbol>` with the current time. -/
theorem stockFetch_shape (sp : StockProvider) (fxenv : FxProviders)
    (now : Nat) (c : Cache) (symbol : String) :
    ∃ (v : CValue) (c2 : Cache) (b : Bool) (l : List FxProv),
      truthy v = true ∧
      stockFetch sp fxenv now c symbol =
        (v, set_cache c2 now ("stock_" ++ symbol) v, b, l) := by
  rcases hq : sp.quote (cleanSymbol symbol) with _ | p
  · exact ⟨CValue.stockPrice symbol ((fallback_prices symbol).getD 100)
      "fallback", c, true, [], rfl, by simp [stockFetch, hq]⟩
  · by_cases hPA : containsSub ".PA" symbol = true
    · exact ⟨CValue.stockPrice symbol
        (p * (get_fx_rate_internal fxenv now c "EUR" "AUD").1) "Alpha Vantage",
        (get_fx_rate_internal fxenv now c "EUR" "AUD").2.1, true,
        (get_fx_rate_internal fxenv now c "EUR" "AUD").2.2, rfl,
        by simp [stockFetch, hq, hPA]⟩
    · by_cases hAX : containsSub ".AX" symbol = true
      · exact ⟨CValue.stockPrice symbol p "Alpha Vantage", c, true, [], rfl,
          by simp [stockFetch, hq, hPA, hAX]⟩
      · by_cases hV : containsSub ".V" symbol = true
        · exact ⟨CValue.stockPrice symbol p "Alpha Vantage", c, true, [], rfl,
            by simp [stockFetch, hq, hPA, hAX, hV]⟩
        · exact ⟨CValue.stockPrice symbol
            (p * (get_fx_rate_internal fxenv now c "USD" "AUD").1)
            "Alpha Vantage",
            (get_fx_rate_internal fxenv now c "USD" "AUD").2.1, true,
            (get_fx_rate_internal fxenv now c "USD" "AUD").2.2, rfl,
            by simp [stockFetch, hq, hPA, hAX, hV]⟩

/-- C8 counterexample: the first FX call stores the provider's zero rate
under `fx_USD_AUD`; a repeated call ten seconds later — well inside the
3600-second fx TTL — still invokes the first upstream provider, because
the zero value fails the `if cached_rate:` truthiness check. -/
theorem fx_zero_rate_refetch :
    (get_fx_rate_internal ⟨fun _ _ => some 0, fun _ _ => none⟩ 0 emptyCache
        "USD" "AUD").2.1 "fx_USD_AUD" = some (0, CValue.rate 0) ∧
    (get_fx_rate_internal ⟨fun _ _ => some 0, fun _ _ => none⟩ 10
        (get_fx_rate_internal ⟨fun _ _ => some 0, fun _ _ => none⟩ 0 emptyCache
          "USD" "AUD").2.1 "USD" "AUD").2.2 = [FxProv.exchangerate] ∧
    10 - 0 < cache_ttl "fx" := by
  with_unfolding_all decide

/-- C8 (amended): after a call on a cache miss has populated the cache,
a repeated call for the same key within the TTL window returns the first
call's value, leaves the cache unchanged, and performs zero upstream
provider invocations — provided the stored value is truthy, which always
holds for the bitcoin and stock payloads and holds for an FX rate exactly
when it is nonzero. -/
theorem ttl_idempotent (benv : BtcProviders) (fxenv : FxProviders)
    (sp : StockProvider) (c : Cache) (now now' : Nat)
    (symbol from_currency to_currency : String) :
    ((get_cached_value c now "bitcoin_aud" "bitcoin").1 = none →
      now' - now < 60 →
      get_bitcoin_price benv now' (get_bitcoin_price benv now c).2.1 =
        ((get_bitcoin_price benv now c).1,
          (get_bitcoin_price benv now c).2.1, [])) ∧
    ((get_cached_value c now ("stock_" ++ symbol) "stock").1 = none →
      now' - now < 300 →
      get_stock_price sp fxenv now'
          (get_stock_price sp fxenv now c symbol).2.1 symbol =
        ((get_stock_price sp fxenv now c symbol).1,
          (get_stock_price sp fxenv now c symbol).2.1, false, [])) ∧
    ((get_cached_value c now
        ("fx_" ++ from_currency ++ "_" ++ to_currency) "fx").1 = none →
      now' - now < 3600 →
      (get_fx_rate_internal fxenv now c from_currency to_currency).1 ≠ 0 →
      get_fx_rate_internal fxenv now'
          (get_fx_rate_internal fxenv now c from_currency to_currency).2.1
          from_currency to_currency =
        ((get_fx_rate_internal fxenv now c from_currency to_currency).1,
          (get_fx_rate_internal fxenv now c from_currency to_currency).2.1,
          [])) := by
  refine ⟨fun hmiss hlt => ?_, fun hmiss hlt => ?_, fun hmiss hlt hnz => ?_⟩
  · have hfst : get_bitcoin_price benv now c = btcFetch benv now c := by
      simp [get_bitcoin_price, cacheHit, hmiss]
    obtain ⟨v, hv, hshape⟩ := btcFetch_shape benv now c
    rw [hfst, hshape]
    have httl : now' - now < cache_ttl "bitcoin" := by
      have h : cache_ttl "bitcoin" = 60 := by decide
      omega
    simp [get_bitcoin_price,
      cacheHit_after_set c now now' "bitcoin_aud" "bitcoin" v hv httl
        (by omega)]
  · have hfst : get_stock_price sp fxenv now c symbol =
        stockFetch sp fxenv now c symbol := by
      simp [get_stock_price, cacheHit, hmiss]
    obtain ⟨v, c2, b, l, hv, hshape⟩ := stockFetch_shape sp fxenv now c symbol
    rw [hfst, hshape]
    have httl : now' - now < cache_ttl "stock" := by
      have h : cache_ttl "stock" = 300 := by decide
      omega
    simp [get_stock_price,
      cacheHit_after_set c2 now now' ("stock_" ++ symbol) "stock" v hv httl
        (by omega)]
  · have hfst : get_fx_rate_internal fxenv now c from_currency to_currency =
        fxFetch fxenv now c from_currency to_currency := by
      simp [get_fx_rate_internal, cacheHit, hmiss]
    rw [hfst] at hnz ⊢
    rw [fxFetch_shape fxenv now c from_currency to_currency]
    have httl : now' - now < cache_ttl "fx" := by
      have h : cache_ttl "fx" = 3600 := by decide
      omega
    have hv : truthy (CValue.rate (fxFetch fxenv now c from_currency
        to_currency).1) = true := by
      simp [truthy, hnz]
    simp [get_fx_rate_internal,
      cacheHit_after_set c now now'
        ("fx_" ++ from_currency ++ "_" ++ to_currency) "fx" _ hv httl
        (by omega), asNum]

/-- C8 witness: each lookup repeated ten seconds after a populating call
returns the stored value with no provider invocations. -/
theorem ttl_idempotent_witness :
    (get_bitcoin_price ⟨some 5, none, none⟩ 10
        (get_bitcoin_price ⟨some 5, none, none⟩ 0 emptyCache).2.1 =
      ((get_bitcoin_price ⟨some 5, none, none⟩ 0 emptyCache).1,
        (get_bitcoin_price ⟨some 5, none, none⟩ 0 emptyCache).2.1, [])) ∧
    (get_stock_price ⟨fun _ => none⟩ ⟨fun _ _ => none, fun _ _ => none⟩ 10
        (get_stock_price ⟨fun _ => none⟩ ⟨fun _ _ => none, fun _ _ => none⟩ 0
          emptyCache "ZZZ").2.1 "ZZZ" =
      ((get_stock_price ⟨fun _ => none⟩ ⟨fun _ _ => none, fun _ _ => none⟩ 0
          emptyCache "ZZZ").1,
        (get_stock_price ⟨fun _ => none⟩ ⟨fun _ _ => none, fun _ _ => none⟩ 0
          emptyCache "ZZZ").2.1, false, [])) ∧
    (get_fx_rate_internal ⟨fun _ _ => some 2, fun _ _ => none⟩ 10
        (get_fx_rate_internal ⟨fun _ _ => some 2, fun _ _ => none⟩ 0
          emptyCache "USD" "AUD").2.1 "USD" "AUD" =
      ((get_fx_rate_internal ⟨fun _ _ => some 2, fun _ _ => none⟩ 0
          emptyCache "USD" "AUD").1,
        (get_fx_rate_internal ⟨fun _ _ => some 2, fun _ _ => none⟩ 0
          emptyCache "USD" "AUD").2.1, [])) :=
  ⟨(ttl_idempotent ⟨some 5, none, none⟩ ⟨fun _ _ => none, fun _ _ => none⟩
      ⟨fun _ => none⟩ emptyCache 0 10 "ZZZ" "USD" "AUD").1
      (by decide) (by decide),
   (ttl_idempotent ⟨some 5, none, none⟩ ⟨fun _ _ => none, fun _ _ => none⟩
      ⟨fun _ => none⟩ emptyCache 0 10 "ZZZ" "USD" "AUD").2.1
      (by decide) (by decide),
   (ttl_idempotent ⟨some 5, none, none⟩ ⟨fun _ _ => some 2, fun _ _ => none⟩
      ⟨fun _ => none⟩ emptyCache 0 10 "ZZZ" "USD" "AUD").2.2
      (by decide) (by decide) (by with_unfolding_all decide)⟩

end PriceApp
